import Mathlib

/-!
Shallow embedding of `src/client/src/services/BinanceMarketData.ts`
(class `BinanceMarketData`).

Conventions of the embedding:
* TS `number` prices/quantities become `ℚ`; timestamps (ms epoch) become `ℤ`.
* `Math.random()` becomes an explicit stream `rand : ℕ → ℚ` of draws in `[0, 1)`;
  each generator step consumes four consecutive draws in source order
  (price change, high extra, low extra, volume).
* `new Date(ts).getHours()` becomes an explicit local-clock parameter
  `hourOf : ℤ → ℤ`.
* Each `fetch`+`json` round-trip becomes an explicit `FetchReply` argument:
  either a transport/parse failure, or a parsed payload together with the flag
  `hasErrorCode` telling whether the reply carried the exchange error envelope
  (`data.code` truthy).
* The mutable instance fields (`tickerSubjects`, `candleSubjects`,
  `isInitialized`) become an explicit `MDState`; each `BehaviorSubject` is
  modelled by its current (last-known) value, which is exactly the first value
  an attaching observer receives.  `setInterval` handles are recorded in
  `tickerTimers` / `candleTimers` (the TS code itself discards the handle, so
  nothing ever removes an element from these lists).
* `try { ... throw ... } catch` becomes `Except` where the body can fail, with
  the catch-handler applied explicitly; a method whose every failure path is
  caught and replaced by a fallback value is total (returns a plain value).
-/

namespace AlgoTrader

/-- `c.toUpperCase()` on one character, restricted to ASCII (exact for the
symbol strings this service handles). -/
def jsToUpperChar (c : Char) : Char :=
  if 'a' ≤ c ∧ c ≤ 'z' then Char.ofNat (c.toNat - 32) else c

/-- `s.toUpperCase()` (ASCII). -/
def jsToUpperCase (s : String) : String := ⟨s.data.map jsToUpperChar⟩

/-- `CandleData` interface: timestamp, open, high, low, close, volume. -/
structure CandleData where
  timestamp : ℤ
  «open» : ℚ
  high : ℚ
  low : ℚ
  close : ℚ
  volume : ℚ
  deriving Repr, DecidableEq

/-- `TickerData` interface. -/
structure TickerData where
  symbol : String
  price : ℚ
  change : ℚ
  changePercent : ℚ
  volume : ℚ
  timestamp : ℤ
  deriving Repr, DecidableEq

/-- `MarketDepth` interface: bid/ask levels as (price, quantity) pairs. -/
structure MarketDepth where
  symbol : String
  bids : List (ℚ × ℚ)
  asks : List (ℚ × ℚ)
  timestamp : ℤ
  deriving Repr, DecidableEq

/-- Outcome of one `fetch` + `response.json()` round trip carrying payload `α`.
`transportError` covers network failure / rejected json parse; `reply c p`
is a parsed reply `p` whose error-envelope flag `c` mirrors the truthiness
of `data.code` in the TS source. -/
inductive FetchReply (α : Type) where
  | transportError
  | reply (hasErrorCode : Bool) (payload : α)
  deriving Repr, DecidableEq

/-- Mutable state of a `BinanceMarketData` instance. `tickerSubjects` /
`candleSubjects` are the two `Map`s (association lists keyed by uppercased
symbol resp. `SYMBOL_interval`), each subject represented by its current
value. `tickerTimers` / `candleTimers` record the keys for which a
`setInterval` polling timer has been started (the TS code never stores the
returned handle and never calls `clearInterval`). -/
structure MDState where
  tickerSubjects : List (String × TickerData)
  candleSubjects : List (String × List CandleData)
  tickerTimers : List String
  candleTimers : List String
  isInitialized : Bool
  deriving Repr, DecidableEq

/-- State of a freshly constructed instance, before/without a successful
probe: both maps empty, no timers, `isInitialized = false`. -/
def initState : MDState := ⟨[], [], [], [], false⟩

/-- The three static quotes seeded by `initializeFallbackData`
(volume 125000, timestamp `Date.now()`). -/
def fallbackSeedList (now : ℤ) : List TickerData :=
  [⟨"BTCUSDT", 42500, 1250, 151/50, 125000, now⟩,
   ⟨"ETHUSDT", 2650, -45, -167/100, 125000, now⟩,
   ⟨"ADAUSDT", 97/200, 3/250, 127/50, 125000, now⟩]

/-- One step of the `forEach` in `initializeFallbackData`: insert the ticker
unless the key is already present. -/
def addSeed (st : MDState) (t : TickerData) : MDState :=
  if (st.tickerSubjects.lookup t.symbol).isSome then st
  else { st with tickerSubjects := st.tickerSubjects ++ [(t.symbol, t)] }

/-- `initializeFallbackData`: seed BTCUSDT/ETHUSDT/ADAUSDT static quotes. -/
def initializeFallbackData (st : MDState) (now : ℤ) : MDState :=
  (fallbackSeedList now).foldl addSeed st

/-- The `fallbackPrices` object literal used in `getCurrentPrice`
(both occurrences are identical). -/
def fallbackPrices (key : String) : Option ℚ :=
  if key = "BTCUSDT" then some 42500
  else if key = "ETHUSDT" then some 2650
  else if key = "ADAUSDT" then some (97/200)
  else if key = "DOTUSDT" then some (157/20)
  else none

/-- Payload of `/ticker/price`: the parsed `data.price`. -/
structure PricePayload where
  price : ℚ
  deriving Repr, DecidableEq

/-- The body of `getCurrentPrice` after the cache check: the
`!this.isInitialized` early return, then the `try`/`catch` around the live
fetch, whose catch-handler (like the early return) yields
`fallbackPrices[key] || 100`. -/
def getCurrentPriceRest (isInitialized : Bool) (key : String)
    (outcome : FetchReply PricePayload) : ℚ :=
  if !isInitialized then (fallbackPrices key).getD 100
  else
    match outcome with
    | .reply false d => d.price
    | _ => (fallbackPrices key).getD 100

/-- `getCurrentPrice(symbol)`: return the cached subject value if it is
strictly positive, otherwise fall through to `getCurrentPriceRest`. Total:
every failure path is caught and mapped to a fallback price. -/
def getCurrentPrice (st : MDState) (symbol : String)
    (outcome : FetchReply PricePayload) : ℚ :=
  match st.tickerSubjects.lookup (jsToUpperCase symbol) with
  | some t =>
      if 0 < t.price then t.price
      else getCurrentPriceRest st.isInitialized (jsToUpperCase symbol) outcome
  | none => getCurrentPriceRest st.isInitialized (jsToUpperCase symbol) outcome

/-- Payload of `/ticker/24hr` (the fields the source reads, parsed). -/
structure TickerPayload where
  symbol : String
  lastPrice : ℚ
  priceChange : ℚ
  priceChangePercent : ℚ
  volume : ℚ
  deriving Repr, DecidableEq

/-- `getTicker(symbol)`: throws on transport failure and on an exchange
error envelope; otherwise returns the normalized `TickerData`.
The catch-handler re-throws, so failures propagate. -/
def getTicker (symbol : String) (now : ℤ)
    (outcome : FetchReply TickerPayload) : Except String TickerData :=
  match outcome with
  | .transportError => .error ("Failed to get ticker for " ++ symbol)
  | .reply true _ => .error "Binance API Error"
  | .reply false d =>
      .ok ⟨d.symbol, d.lastPrice, d.priceChange, d.priceChangePercent, d.volume, now⟩

/-- `getKlines(symbol, interval, limit)`: payload is the parsed kline rows;
failures (transport or error envelope) are re-thrown. -/
def getKlines (symbol interval : String) (limit : ℕ)
    (outcome : FetchReply (List CandleData)) : Except String (List CandleData) :=
  match outcome with
  | .transportError => .error ("Failed to get klines for " ++ symbol)
  | .reply true _ => .error "Binance API Error"
  | .reply false ks => .ok ks

/-- Payload of `/depth`. -/
structure DepthPayload where
  bids : List (ℚ × ℚ)
  asks : List (ℚ × ℚ)
  deriving Repr, DecidableEq

/-- `getOrderBook(symbol, limit)`: failures are re-thrown. -/
def getOrderBook (symbol : String) (limit : ℕ) (now : ℤ)
    (outcome : FetchReply DepthPayload) : Except String MarketDepth :=
  match outcome with
  | .transportError => .error ("Failed to get order book for " ++ symbol)
  | .reply true _ => .error "Binance API Error"
  | .reply false d => .ok ⟨(jsToUpperCase symbol), d.bids, d.asks, now⟩

/-- One entry of `data.symbols` in `/exchangeInfo`. -/
structure SymbolInfo where
  symbol : String
  status : String
  deriving Repr, DecidableEq

/-- `getSymbols()`: keep the `TRADING` symbols; failures are re-thrown. -/
def getSymbols (outcome : FetchReply (List SymbolInfo)) :
    Except String (List String) :=
  match outcome with
  | .transportError => .error "Failed to get symbols"
  | .reply true _ => .error "Binance API Error"
  | .reply false ds =>
      .ok ((ds.filter (fun s => s.status == "TRADING")).map (fun s => s.symbol))

/-- `convertTimeframeToBinanceInterval`: identity on the seven known
timeframes, `"1h"` otherwise. -/
def convertTimeframeToBinanceInterval (timeframe : String) : String :=
  if timeframe = "1m" ∨ timeframe = "5m" ∨ timeframe = "15m" ∨
     timeframe = "30m" ∨ timeframe = "1h" ∨ timeframe = "4h" ∨
     timeframe = "1d"
  then timeframe else "1h"

/-- `getTimeframeInMs`: millisecond duration of a timeframe string,
defaulting to one hour. -/
def getTimeframeInMs (timeframe : String) : ℤ :=
  if timeframe = "1m" then 60 * 1000
  else if timeframe = "5m" then 5 * 60 * 1000
  else if timeframe = "15m" then 15 * 60 * 1000
  else if timeframe = "30m" then 30 * 60 * 1000
  else if timeframe = "1h" then 60 * 60 * 1000
  else if timeframe = "4h" then 4 * 60 * 60 * 1000
  else if timeframe = "1d" then 24 * 60 * 60 * 1000
  else 60 * 60 * 1000

/-- `startingPrices` object literal in `generateFallbackHistoricalData`. -/
def startingPrices (key : String) : Option ℚ :=
  if key = "BTCUSDT" then some 42500
  else if key = "ETHUSDT" then some 2650
  else if key = "ADAUSDT" then some (97/200)
  else if key = "SOLUSDT" then some (171/2)
  else if key = "DOTUSDT" then some (157/20)
  else none

/-- Does `p` start the list `l`? (helper for `strIncludes`). -/
def charsStartWith : List Char → List Char → Bool
  | [], _ => true
  | _ :: _, [] => false
  | p :: ps, c :: cs => p == c && charsStartWith ps cs

/-- Does `pat` occur as a contiguous run inside the list? -/
def hasInfixChars (pat : List Char) : List Char → Bool
  | [] => charsStartWith pat []
  | c :: tl => charsStartWith pat (c :: tl) || hasInfixChars pat tl

/-- `s.includes(sub)`. -/
def strIncludes (s sub : String) : Bool :=
  hasInfixChars sub.toList s.toList

/-- Session-hours volatility multiplier of the candle whose loop index is
`i` (timestamp `now - i * tfMs`): ×1.5 when the local hour is in `[9, 16]`. -/
def multAt (hourOf : ℤ → ℤ) (now tfMs : ℤ) (i : ℕ) : ℚ :=
  if 9 ≤ hourOf (now - (i : ℤ) * tfMs) ∧ hourOf (now - (i : ℤ) * tfMs) ≤ 16
  then 3/2 else 1

/-- Close of one generator step:
`Math.max(currentPrice * 0.1, currentPrice + change)` where
`change = (u - 0.5) * currentPrice * volatility * volatilityMultiplier`. -/
def stepClose (vol mult u cp : ℚ) : ℚ :=
  max (cp * (1/10)) (cp + (u - 1/2) * cp * vol * mult)

/-- Close of the candle with loop index `i`, random cursor `n`, previous
price `cp`. -/
def candClose (hourOf : ℤ → ℤ) (rand : ℕ → ℚ) (now tfMs : ℤ) (vol : ℚ)
    (i n : ℕ) (cp : ℚ) : ℚ :=
  stepClose vol (multAt hourOf now tfMs i) (rand n) cp

/-- The candle pushed at loop index `i` of `generateFallbackHistoricalData`:
open is the incoming `currentPrice`, close per `candClose`,
high/low extend `max`/`min` of open/close by
`Math.random() * currentPrice * 0.005 * Math.abs(direction)` with
`direction = close > open ? 1 : -1`, volume `50 + Math.random() * 200`. -/
def mkCandle (hourOf : ℤ → ℤ) (rand : ℕ → ℚ) (now tfMs : ℤ) (vol : ℚ)
    (i n : ℕ) (cp : ℚ) : CandleData :=
  let close := candClose hourOf rand now tfMs vol i n cp
  let direction : ℚ := if cp < close then 1 else -1
  ⟨now - (i : ℤ) * tfMs,
   cp,
   max cp close + rand (n+1) * cp * (5/1000) * |direction|,
   min cp close - rand (n+2) * cp * (5/1000) * |direction|,
   close,
   50 + rand (n+3) * 200⟩

/-- The `for (let i = limit - 1; i >= 0; i--)` loop: with `r` iterations
remaining the loop index is `i = r - 1`; `n` is the random cursor and `cp`
the carried `currentPrice` (next step's `cp` is this step's close). -/
def genLoop (hourOf : ℤ → ℤ) (rand : ℕ → ℚ) (now tfMs : ℤ) (vol : ℚ) :
    ℕ → ℕ → ℚ → List CandleData
  | 0, _, _ => []
  | r + 1, n, cp =>
      mkCandle hourOf rand now tfMs vol r n cp ::
        genLoop hourOf rand now tfMs vol r (n + 4)
          (candClose hourOf rand now tfMs vol r n cp)

/-- `generateFallbackHistoricalData(symbol, timeframe, limit)` at generation
time `now = Date.now()`: base price from `startingPrices` of the uppercased
symbol (default 100), volatility 0.008 iff the raw symbol contains "BTC"
else 0.012. -/
def generateFallbackHistoricalData (hourOf : ℤ → ℤ) (rand : ℕ → ℚ)
    (symbol timeframe : String) (limit : ℕ) (now : ℤ) : List CandleData :=
  genLoop hourOf rand now (getTimeframeInMs timeframe)
    (if strIncludes symbol "BTC" then 1/125 else 3/250)
    limit 0 ((startingPrices (jsToUpperCase symbol)).getD 100)

/-- `getHistoricalData(symbol, timeframe, limit)`: fallback generator when
not initialized; otherwise fetch klines and fall back to the generator on
any thrown error, including the explicit throw on an empty kline list. -/
def getHistoricalData (hourOf : ℤ → ℤ) (rand : ℕ → ℚ) (st : MDState)
    (klinesOutcome : FetchReply (List CandleData))
    (symbol timeframe : String) (limit : ℕ) (now : ℤ) : List CandleData :=
  if !st.isInitialized then
    generateFallbackHistoricalData hourOf rand symbol timeframe limit now
  else
    match getKlines symbol (convertTimeframeToBinanceInterval timeframe) limit
        klinesOutcome with
    | .error _ =>
        generateFallbackHistoricalData hourOf rand symbol timeframe limit now
    | .ok candles =>
        if candles.length = 0 then
          generateFallbackHistoricalData hourOf rand symbol timeframe limit now
        else candles

/-- The zero-valued placeholder quote seeded by `subscribeToTicker` for a
previously unseen key. -/
def placeholderTicker (key : String) (now : ℤ) : TickerData :=
  ⟨key, 0, 0, 0, 0, now⟩

/-- `subscribeToTicker(symbol)`: key = uppercased symbol. If absent, create
a subject holding the placeholder and start one polling timer; return the
subject's current value (what an attaching observer receives first). -/
def subscribeToTicker (st : MDState) (symbol : String) (now : ℤ) :
    MDState × TickerData :=
  match st.tickerSubjects.lookup (jsToUpperCase symbol) with
  | some t => (st, t)
  | none =>
      ({ st with
          tickerSubjects :=
            st.tickerSubjects ++ [((jsToUpperCase symbol), placeholderTicker (jsToUpperCase symbol) now)],
          tickerTimers := st.tickerTimers ++ [(jsToUpperCase symbol)] },
       placeholderTicker (jsToUpperCase symbol) now)

/-- `subscribeToCandles(symbol, interval)`: key = `SYMBOL_interval`, subject
seeded with the empty candle list, one polling timer per fresh key. -/
def subscribeToCandles (st : MDState) (symbol interval : String) :
    MDState × List CandleData :=
  match st.candleSubjects.lookup ((jsToUpperCase symbol) ++ "_" ++ interval) with
  | some cs => (st, cs)
  | none =>
      ({ st with
          candleSubjects :=
            st.candleSubjects ++ [((jsToUpperCase symbol) ++ "_" ++ interval, [])],
          candleTimers := st.candleTimers ++ [(jsToUpperCase symbol) ++ "_" ++ interval] },
       [])

/-- Side of a position in `calculatePnL`. -/
inductive Side where
  | LONG
  | SHORT
  deriving Repr, DecidableEq

/-- Result record of `calculatePnL`. -/
structure PnLResult where
  pnl : ℚ
  pnlPercent : ℚ
  currentPrice : ℚ
  deriving Repr, DecidableEq

/-- The arithmetic of `calculatePnL` given the already-fetched current
price. -/
def calculatePnL (side : Side) (entryPrice quantity currentPrice : ℚ) :
    PnLResult :=
  let pnl :=
    match side with
    | .LONG => (currentPrice - entryPrice) * quantity
    | .SHORT => (entryPrice - currentPrice) * quantity
  ⟨pnl, pnl / (entryPrice * quantity) * 100, currentPrice⟩

/-- `calculatePnL(symbol, side, entryPrice, quantity)`: current price from
`getCurrentPrice` (which never fails), then the PnL arithmetic. -/
def calculatePnLService (st : MDState) (symbol : String)
    (outcome : FetchReply PricePayload) (side : Side)
    (entryPrice quantity : ℚ) : PnLResult :=
  calculatePnL side entryPrice quantity (getCurrentPrice st symbol outcome)

/-- `cleanup()`: clear both subject maps. The `setInterval` handles were
never stored, so no timer is cancelled. -/
def cleanup (st : MDState) : MDState :=
  { st with tickerSubjects := [], candleSubjects := [] }

/-- A concrete random stream (every `Math.random()` draw is 1/2), used to
instantiate universally quantified theorems at a concrete input. -/
def rHalf : ℕ → ℚ := fun _ => 1/2

/-- A concrete local clock: every timestamp falls in hour 0. -/
def hZero : ℤ → ℤ := fun _ => 0

/-- A state whose cached BTCUSDT quote has price 110 (live mode). -/
def st110 : MDState :=
  ⟨[("BTCUSDT", ⟨"BTCUSDT", 110, 0, 0, 0, 0⟩)], [], [], [], true⟩

/-- A state whose cached BTCUSDT quote has price 90 (live mode). -/
def st90 : MDState :=
  ⟨[("BTCUSDT", ⟨"BTCUSDT", 90, 0, 0, 0, 0⟩)], [], [], [], true⟩

/-- One subscription request issued by some caller. -/
inductive SubOp where
  | tick (symbol : String) (now : ℤ)
  | cand (symbol interval : String)

/-- Apply one subscription request to the state. -/
def applyOp (st : MDState) : SubOp → MDState
  | .tick s n => (subscribeToTicker st s n).1
  | .cand s i => (subscribeToCandles st s i).1

/-- Apply a sequence of subscription requests, in order. -/
def applyOps (st : MDState) (ops : List SubOp) : MDState :=
  ops.foldl applyOp st

/-- De-duplication invariant: each timer list has no duplicate key, and
every key with a timer has a subject registered in the corresponding map. -/
def timerInv (st : MDState) : Prop :=
  st.tickerTimers.Nodup ∧ st.candleTimers.Nodup ∧
  (∀ k ∈ st.tickerTimers, (st.tickerSubjects.lookup k).isSome = true) ∧
  (∀ k ∈ st.candleTimers, (st.candleSubjects.lookup k).isSome = true)

/-- Invariant used for the seeded symbols: the key has a registered ticker
subject and no ticker polling timer. -/
def seededNoTimer (key : String) (st : MDState) : Prop :=
  (st.tickerSubjects.lookup key).isSome = true ∧ key ∉ st.tickerTimers

/-! ### Basic facts about the synthetic generator -/

lemma mkCandle_timestamp (hf : ℤ → ℤ) (rd : ℕ → ℚ) (now tf : ℤ) (vol : ℚ)
    (i n : ℕ) (cp : ℚ) :
    (mkCandle hf rd now tf vol i n cp).timestamp = now - (i : ℤ) * tf := rfl

lemma mkCandle_open (hf : ℤ → ℤ) (rd : ℕ → ℚ) (now tf : ℤ) (vol : ℚ)
    (i n : ℕ) (cp : ℚ) :
    (mkCandle hf rd now tf vol i n cp).«open» = cp := rfl

lemma mkCandle_close (hf : ℤ → ℤ) (rd : ℕ → ℚ) (now tf : ℤ) (vol : ℚ)
    (i n : ℕ) (cp : ℚ) :
    (mkCandle hf rd now tf vol i n cp).close = candClose hf rd now tf vol i n cp := rfl

lemma mkCandle_high (hf : ℤ → ℤ) (rd : ℕ → ℚ) (now tf : ℤ) (vol : ℚ)
    (i n : ℕ) (cp : ℚ) :
    (mkCandle hf rd now tf vol i n cp).high
      = max cp (candClose hf rd now tf vol i n cp)
        + rd (n+1) * cp * (5/1000)
          * |(if cp < candClose hf rd now tf vol i n cp then (1 : ℚ) else -1)| := rfl

lemma mkCandle_low (hf : ℤ → ℤ) (rd : ℕ → ℚ) (now tf : ℤ) (vol : ℚ)
    (i n : ℕ) (cp : ℚ) :
    (mkCandle hf rd now tf vol i n cp).low
      = min cp (candClose hf rd now tf vol i n cp)
        - rd (n+2) * cp * (5/1000)
          * |(if cp < candClose hf rd now tf vol i n cp then (1 : ℚ) else -1)| := rfl

lemma candClose_pos (hf : ℤ → ℤ) (rd : ℕ → ℚ) (now tf : ℤ) (vol : ℚ)
    (i n : ℕ) (cp : ℚ) (h : 0 < cp) : 0 < candClose hf rd now tf vol i n cp := by
  have h10 : 0 < cp * (1/10) := by positivity
  exact lt_of_lt_of_le h10 (le_max_left _ _)

lemma genLoop_length (hf : ℤ → ℤ) (rd : ℕ → ℚ) (now tf : ℤ) (vol : ℚ) :
    ∀ (r n : ℕ) (cp : ℚ), (genLoop hf rd now tf vol r n cp).length = r := by
  intro r
  induction r with
  | zero => intro n cp; rfl
  | succ m ih => intro n cp; simp only [genLoop, List.length_cons, ih]

lemma genLoop_head_timestamp (hf : ℤ → ℤ) (rd : ℕ → ℚ) (now tf : ℤ) (vol : ℚ)
    (m n : ℕ) (cp : ℚ) :
    ((genLoop hf rd now tf vol (m + 1) n cp).head?).map CandleData.timestamp
      = some (now - (m : ℤ) * tf) := rfl

lemma genLoop_head_open (hf : ℤ → ℤ) (rd : ℕ → ℚ) (now tf : ℤ) (vol : ℚ)
    (m n : ℕ) (cp : ℚ) :
    ((genLoop hf rd now tf vol (m + 1) n cp).head?).map CandleData.«open»
      = some cp := rfl

lemma genLoop_chain_timestamp (hf : ℤ → ℤ) (rd : ℕ → ℚ) (now tf : ℤ) (vol : ℚ) :
    ∀ (r n : ℕ) (cp : ℚ),
      List.Chain' (fun a b => b.timestamp = a.timestamp + tf)
        (genLoop hf rd now tf vol r n cp) := by
  intro r
  induction r with
  | zero => intro n cp; exact List.chain'_nil
  | succ m ih =>
    intro n cp
    refine List.chain'_cons'.mpr ⟨?_, ih (n+4) (candClose hf rd now tf vol m n cp)⟩
    intro b hb
    cases m with
    | zero => simp [genLoop] at hb
    | succ k =>
      have hhead := genLoop_head_timestamp hf rd now tf vol k (n+4)
        (candClose hf rd now tf vol (k+1) n cp)
      rw [Option.mem_def] at hb
      rw [hb] at hhead
      have hb2 : b.timestamp = now - (k : ℤ) * tf := by
        simpa using hhead
      rw [hb2, mkCandle_timestamp]
      push_cast
      ring

lemma genLoop_chain_open (hf : ℤ → ℤ) (rd : ℕ → ℚ) (now tf : ℤ) (vol : ℚ) :
    ∀ (r n : ℕ) (cp : ℚ),
      List.Chain' (fun a b => b.«open» = a.close)
        (genLoop hf rd now tf vol r n cp) := by
  intro r
  induction r with
  | zero => intro n cp; exact List.chain'_nil
  | succ m ih =>
    intro n cp
    refine List.chain'_cons'.mpr ⟨?_, ih (n+4) (candClose hf rd now tf vol m n cp)⟩
    intro b hb
    cases m with
    | zero => simp [genLoop] at hb
    | succ k =>
      have hhead := genLoop_head_open hf rd now tf vol k (n+4)
        (candClose hf rd now tf vol (k+1) n cp)
      rw [Option.mem_def] at hb
      rw [hb] at hhead
      have hb2 : b.«open» = candClose hf rd now tf vol (k+1) n cp := by
        simpa using hhead
      rw [hb2, mkCandle_close]

lemma genLoop_mem_pos (hf : ℤ → ℤ) (rd : ℕ → ℚ) (now tf : ℤ) (vol : ℚ) :
    ∀ (r n : ℕ) (cp : ℚ), 0 < cp →
      ∀ c ∈ genLoop hf rd now tf vol r n cp, 0 < c.«open» ∧ 0 < c.close := by
  intro r
  induction r with
  | zero => intro n cp _ c hc; simp [genLoop] at hc
  | succ m ih =>
    intro n cp hcp c hc
    rcases List.mem_cons.mp hc with h | h
    · subst h
      exact ⟨by rw [mkCandle_open]; exact hcp,
             by rw [mkCandle_close]; exact candClose_pos hf rd now tf vol m n cp hcp⟩
    · exact ih (n+4) _ (candClose_pos hf rd now tf vol m n cp hcp) c h

lemma genLoop_mem_ohlc (hf : ℤ → ℤ) (rd : ℕ → ℚ) (now tf : ℤ) (vol : ℚ)
    (hr : ∀ m, 0 ≤ rd m) :
    ∀ (r n : ℕ) (cp : ℚ), 0 < cp →
      ∀ c ∈ genLoop hf rd now tf vol r n cp,
        c.low ≤ min c.«open» c.close ∧ max c.«open» c.close ≤ c.high := by
  intro r
  induction r with
  | zero => intro n cp _ c hc; simp [genLoop] at hc
  | succ m ih =>
    intro n cp hcp c hc
    rcases List.mem_cons.mp hc with h | h
    · subst h
      have hhigh : (0:ℚ) ≤ rd (n+1) * cp * (5/1000)
          * |(if cp < candClose hf rd now tf vol m n cp then (1 : ℚ) else -1)| := by
        have := hr (n+1)
        positivity
      have hlow : (0:ℚ) ≤ rd (n+2) * cp * (5/1000)
          * |(if cp < candClose hf rd now tf vol m n cp then (1 : ℚ) else -1)| := by
        have := hr (n+2)
        positivity
      constructor
      · rw [mkCandle_low, mkCandle_open, mkCandle_close]
        exact sub_le_self _ hlow
      · rw [mkCandle_high, mkCandle_open, mkCandle_close]
        exact le_add_of_nonneg_right hhigh
    · exact ih (n+4) _ (candClose_pos hf rd now tf vol m n cp hcp) c h

lemma genLoop_get_timestamp (hf : ℤ → ℤ) (rd : ℕ → ℚ) (now tf : ℤ) (vol : ℚ) :
    ∀ (r n : ℕ) (cp : ℚ) (k : ℕ) (h : k < (genLoop hf rd now tf vol r n cp).length),
      ((genLoop hf rd now tf vol r n cp).get ⟨k, h⟩).timestamp
        = now - ((r : ℤ) - 1 - (k : ℤ)) * tf := by
  intro r
  induction r with
  | zero => intro n cp k h; simp [genLoop] at h
  | succ m ih =>
    intro n cp k h
    cases k with
    | zero =>
      show (mkCandle hf rd now tf vol m n cp).timestamp = _
      rw [mkCandle_timestamp]
      push_cast
      ring
    | succ k =>
      have h2 : k < (genLoop hf rd now tf vol m (n+4)
          (candClose hf rd now tf vol m n cp)).length := by
        have hl := genLoop_length hf rd now tf vol m (n+4)
          (candClose hf rd now tf vol m n cp)
        have hl2 := genLoop_length hf rd now tf vol (m+1) n cp
        omega
      have heq : ((genLoop hf rd now tf vol (m+1) n cp).get ⟨k+1, h⟩)
          = ((genLoop hf rd now tf vol m (n+4)
              (candClose hf rd now tf vol m n cp)).get ⟨k, h2⟩) := rfl
      rw [heq, ih]
      push_cast
      ring

lemma genLoop_getLast_timestamp (hf : ℤ → ℤ) (rd : ℕ → ℚ) (now tf : ℤ) (vol : ℚ) :
    ∀ (r n : ℕ) (cp : ℚ), r ≠ 0 →
      ((genLoop hf rd now tf vol r n cp).getLast?).map CandleData.timestamp
        = some now := by
  intro r
  induction r with
  | zero => intro n cp h; exact absurd rfl h
  | succ m ih =>
    intro n cp _
    cases m with
    | zero =>
      show (some (mkCandle hf rd now tf vol 0 n cp)).map CandleData.timestamp = some now
      rw [Option.map_some']
      rw [mkCandle_timestamp]
      norm_num
    | succ k =>
      have hcons : genLoop hf rd now tf vol (k+2) n cp
          = mkCandle hf rd now tf vol (k+1) n cp ::
            (mkCandle hf rd now tf vol k (n+4) (candClose hf rd now tf vol (k+1) n cp) ::
              genLoop hf rd now tf vol k (n+8)
                (candClose hf rd now tf vol k (n+4)
                  (candClose hf rd now tf vol (k+1) n cp))) := rfl
      rw [hcons, List.getLast?_cons_cons]
      exact ih (n+4) (candClose hf rd now tf vol (k+1) n cp) (Nat.succ_ne_zero k)

lemma startingPrice_pos (k : String) : 0 < (startingPrices k).getD 100 := by
  unfold startingPrices
  split_ifs <;> norm_num

lemma fallbackPrice_pos (k : String) : 0 < (fallbackPrices k).getD 100 := by
  unfold fallbackPrices
  split_ifs <;> norm_num

lemma getTimeframeInMs_pos (timeframe : String) : 0 < getTimeframeInMs timeframe := by
  unfold getTimeframeInMs
  split_ifs <;> norm_num

/-! ### Association-list and subscription lemmas -/

lemma lookup_append_none {β : Type} (l₁ l₂ : List (String × β)) (k : String)
    (h : l₁.lookup k = none) : (l₁ ++ l₂).lookup k = l₂.lookup k := by
  induction l₁ with
  | nil => rfl
  | cons p tl ih =>
    obtain ⟨a, b⟩ := p
    cases hk : (k == a) with
    | true => simp [List.lookup, hk] at h
    | false =>
        simp only [List.lookup, hk] at h
        rw [List.cons_append]
        simp only [List.lookup, hk]
        exact ih h

lemma lookup_append_some {β : Type} (l₁ l₂ : List (String × β)) (k : String)
    (v : β) (h : l₁.lookup k = some v) : (l₁ ++ l₂).lookup k = some v := by
  induction l₁ with
  | nil => simp [List.lookup] at h
  | cons p tl ih =>
    obtain ⟨a, b⟩ := p
    cases hk : (k == a) with
    | true =>
        simp only [List.lookup, hk] at h
        rw [List.cons_append]
        simp only [List.lookup, hk]
        exact h
    | false =>
        simp only [List.lookup, hk] at h
        rw [List.cons_append]
        simp only [List.lookup, hk]
        exact ih h

lemma lookup_singleton {β : Type} (k : String) (v : β) :
    ([(k, v)] : List (String × β)).lookup k = some v := by
  simp [List.lookup]

lemma subscribeToTicker_mem (st : MDState) (s : String) (n : ℤ) (t : TickerData)
    (h : st.tickerSubjects.lookup (jsToUpperCase s) = some t) :
    subscribeToTicker st s n = (st, t) := by
  unfold subscribeToTicker
  rw [h]

lemma subscribeToTicker_new (st : MDState) (s : String) (n : ℤ)
    (h : st.tickerSubjects.lookup (jsToUpperCase s) = none) :
    subscribeToTicker st s n =
      ({ st with
          tickerSubjects := st.tickerSubjects
            ++ [(jsToUpperCase s, placeholderTicker (jsToUpperCase s) n)],
          tickerTimers := st.tickerTimers ++ [jsToUpperCase s] },
       placeholderTicker (jsToUpperCase s) n) := by
  unfold subscribeToTicker
  rw [h]

lemma subscribeToCandles_mem (st : MDState) (s iv : String) (cs : List CandleData)
    (h : st.candleSubjects.lookup (jsToUpperCase s ++ "_" ++ iv) = some cs) :
    subscribeToCandles st s iv = (st, cs) := by
  unfold subscribeToCandles
  rw [h]

lemma subscribeToCandles_new (st : MDState) (s iv : String)
    (h : st.candleSubjects.lookup (jsToUpperCase s ++ "_" ++ iv) = none) :
    subscribeToCandles st s iv =
      ({ st with
          candleSubjects := st.candleSubjects ++ [(jsToUpperCase s ++ "_" ++ iv, [])],
          candleTimers := st.candleTimers ++ [jsToUpperCase s ++ "_" ++ iv] },
       []) := by
  unfold subscribeToCandles
  rw [h]

lemma timerInv_subscribeToTicker (st : MDState) (s : String) (n : ℤ)
    (h : timerInv st) : timerInv (subscribeToTicker st s n).1 := by
  cases hl : st.tickerSubjects.lookup (jsToUpperCase s) with
  | some t => rw [subscribeToTicker_mem st s n t hl]; exact h
  | none =>
    rw [subscribeToTicker_new st s n hl]
    obtain ⟨h1, h2, h3, h4⟩ := h
    have hkey : jsToUpperCase s ∉ st.tickerTimers := by
      intro hmem
      have hs := h3 _ hmem
      rw [hl] at hs
      simp at hs
    refine ⟨?_, h2, ?_, h4⟩
    · rw [List.nodup_append]
      refine ⟨h1, List.nodup_singleton _, ?_⟩
      intro x hx hx2
      have hxx : x = jsToUpperCase s := by simpa using hx2
      subst hxx
      exact hkey hx
    · intro k hk
      rcases List.mem_append.mp hk with hk | hk
      · rcases Option.isSome_iff_exists.mp (h3 k hk) with ⟨v, hv⟩
        rw [lookup_append_some _ _ _ _ hv]
        rfl
      · have hk1 : k = jsToUpperCase s := by simpa using hk
        subst hk1
        rw [lookup_append_none _ _ _ hl, lookup_singleton]
        rfl

lemma timerInv_subscribeToCandles (st : MDState) (s iv : String)
    (h : timerInv st) : timerInv (subscribeToCandles st s iv).1 := by
  cases hl : st.candleSubjects.lookup (jsToUpperCase s ++ "_" ++ iv) with
  | some cs => rw [subscribeToCandles_mem st s iv cs hl]; exact h
  | none =>
    rw [subscribeToCandles_new st s iv hl]
    obtain ⟨h1, h2, h3, h4⟩ := h
    have hkey : jsToUpperCase s ++ "_" ++ iv ∉ st.candleTimers := by
      intro hmem
      have hs := h4 _ hmem
      rw [hl] at hs
      simp at hs
    refine ⟨h1, ?_, h3, ?_⟩
    · rw [List.nodup_append]
      refine ⟨h2, List.nodup_singleton _, ?_⟩
      intro x hx hx2
      have hxx : x = jsToUpperCase s ++ "_" ++ iv := by simpa using hx2
      subst hxx
      exact hkey hx
    · intro k hk
      rcases List.mem_append.mp hk with hk | hk
      · rcases Option.isSome_iff_exists.mp (h4 k hk) with ⟨v, hv⟩
        rw [lookup_append_some _ _ _ _ hv]
        rfl
      · have hk1 : k = jsToUpperCase s ++ "_" ++ iv := by simpa using hk
        subst hk1
        rw [lookup_append_none _ _ _ hl, lookup_singleton]
        rfl

lemma timerInv_applyOp (st : MDState) (op : SubOp) (h : timerInv st) :
    timerInv (applyOp st op) := by
  cases op with
  | tick s n => exact timerInv_subscribeToTicker st s n h
  | cand s i => exact timerInv_subscribeToCandles st s i h

lemma timerInv_applyOps : ∀ (ops : List SubOp) (st : MDState),
    timerInv st → timerInv (applyOps st ops) := by
  intro ops
  induction ops with
  | nil => intro st h; exact h
  | cons op tl ih => intro st h; exact ih _ (timerInv_applyOp st op h)

lemma timerInv_initState : timerInv initState := by
  refine ⟨List.nodup_nil, List.nodup_nil, ?_, ?_⟩ <;> intro k hk <;>
    simp [initState] at hk

lemma seededNoTimer_applyOp (key : String) (st : MDState) (op : SubOp)
    (h : seededNoTimer key st) : seededNoTimer key (applyOp st op) := by
  obtain ⟨h1, h2⟩ := h
  cases op with
  | tick s n =>
    show seededNoTimer key (subscribeToTicker st s n).1
    cases hl : st.tickerSubjects.lookup (jsToUpperCase s) with
    | some t => rw [subscribeToTicker_mem st s n t hl]; exact ⟨h1, h2⟩
    | none =>
      rw [subscribeToTicker_new st s n hl]
      constructor
      · rcases Option.isSome_iff_exists.mp h1 with ⟨v, hv⟩
        show ((st.tickerSubjects ++ [(jsToUpperCase s, placeholderTicker (jsToUpperCase s) n)]).lookup key).isSome = true
        rw [lookup_append_some _ _ _ _ hv]
        rfl
      · intro hmem
        rcases List.mem_append.mp hmem with hm | hm
        · exact h2 hm
        · have hkk : key = jsToUpperCase s := by simpa using hm
          subst hkk
          rw [hl] at h1
          simp at h1
  | cand s i =>
    show seededNoTimer key (subscribeToCandles st s i).1
    cases hl : st.candleSubjects.lookup (jsToUpperCase s ++ "_" ++ i) with
    | some cs => rw [subscribeToCandles_mem st s i cs hl]; exact ⟨h1, h2⟩
    | none =>
      rw [subscribeToCandles_new st s i hl]
      exact ⟨h1, h2⟩

lemma seededNoTimer_applyOps (key : String) : ∀ (ops : List SubOp) (st : MDState),
    seededNoTimer key st → seededNoTimer key (applyOps st ops) := by
  intro ops
  induction ops with
  | nil => intro st h; exact h
  | cons op tl ih => intro st h; exact ih _ (seededNoTimer_applyOp key st op h)

/-! ### Claim theorems -/

/-- Claim C2: for every state, symbol, fetch outcome, entry price and
quantity with `entry × qty ≠ 0`, `calculatePnL` returns
`pnl = (current − entry) × qty` for LONG and `(entry − current) × qty` for
SHORT, where `current` is the price `getCurrentPrice` produced, and
`pnlPercent = pnl / (entry × qty) × 100` for either side. -/
theorem claim_C2_pnl (st : MDState) (symbol : String)
    (outcome : FetchReply PricePayload) (entry qty : ℚ)
    (h : entry * qty ≠ 0) :
    (calculatePnLService st symbol outcome .LONG entry qty).pnl
      = (getCurrentPrice st symbol outcome - entry) * qty ∧
    (calculatePnLService st symbol outcome .SHORT entry qty).pnl
      = (entry - getCurrentPrice st symbol outcome) * qty ∧
    ∀ side, (calculatePnLService st symbol outcome side entry qty).pnlPercent
      = (calculatePnLService st symbol outcome side entry qty).pnl / (entry * qty) * 100 := by
  refine ⟨rfl, rfl, ?_⟩
  intro side
  cases side <;> rfl

/-- Witness for C2 at the spec's example inputs: cached current price 110,
LONG, entry 100, qty 2 gives pnl 20 and pnlPercent 10; cached current
price 90, SHORT, entry 100, qty 2 gives pnl 20 and pnlPercent 10. -/
theorem claim_C2_pnl_witness :
    (100 : ℚ) * 2 ≠ 0 ∧
    getCurrentPrice st110 "BTCUSDT" .transportError = 110 ∧
    (calculatePnLService st110 "BTCUSDT" .transportError .LONG 100 2).pnl = 20 ∧
    (calculatePnLService st110 "BTCUSDT" .transportError .LONG 100 2).pnlPercent = 10 ∧
    getCurrentPrice st90 "BTCUSDT" .transportError = 90 ∧
    (calculatePnLService st90 "BTCUSDT" .transportError .SHORT 100 2).pnl = 20 ∧
    (calculatePnLService st90 "BTCUSDT" .transportError .SHORT 100 2).pnlPercent = 10 := by
  have h110 := claim_C2_pnl st110 "BTCUSDT" .transportError 100 2 (by norm_num)
  have h90 := claim_C2_pnl st90 "BTCUSDT" .transportError 100 2 (by norm_num)
  have hc110 : getCurrentPrice st110 "BTCUSDT" .transportError = 110 := rfl
  have hc90 : getCurrentPrice st90 "BTCUSDT" .transportError = 90 := rfl
  refine ⟨by norm_num, hc110, ?_, ?_, hc90, ?_, ?_⟩
  · rw [h110.1, hc110]; norm_num
  · rw [h110.2.2 Side.LONG, h110.1, hc110]; norm_num
  · rw [h90.2.1, hc90]; norm_num
  · rw [h90.2.2 Side.SHORT, h90.2.1, hc90]; norm_num

/-- Claim C3: for every symbol, timeframe string and count, every candle in
the generated fallback sequence satisfies `low ≤ min(open, close)` and
`high ≥ max(open, close)`, and consecutive timestamps increase strictly by
exactly the requested timeframe's millisecond duration. Hypothesis: the
random draws lie in `[0, 1)`, as `Math.random()` guarantees. -/
theorem claim_C3_generator_wellformed (hourOf : ℤ → ℤ) (rand : ℕ → ℚ)
    (symbol timeframe : String) (limit : ℕ) (now : ℤ)
    (hrand : ∀ m, 0 ≤ rand m ∧ rand m < 1) :
    (∀ c ∈ generateFallbackHistoricalData hourOf rand symbol timeframe limit now,
        c.low ≤ min c.«open» c.close ∧ max c.«open» c.close ≤ c.high) ∧
    List.Chain' (fun a b =>
        b.timestamp = a.timestamp + getTimeframeInMs timeframe ∧
        a.timestamp < b.timestamp)
      (generateFallbackHistoricalData hourOf rand symbol timeframe limit now) := by
  constructor
  · intro c hc
    exact genLoop_mem_ohlc hourOf rand now (getTimeframeInMs timeframe)
      (if strIncludes symbol "BTC" then 1/125 else 3/250)
      (fun m => (hrand m).1) limit 0
      ((startingPrices (jsToUpperCase symbol)).getD 100)
      (startingPrice_pos _) c hc
  · have hch := genLoop_chain_timestamp hourOf rand now (getTimeframeInMs timeframe)
      (if strIncludes symbol "BTC" then 1/125 else 3/250) limit 0
      ((startingPrices (jsToUpperCase symbol)).getD 100)
    exact hch.imp fun a b hab =>
      ⟨hab, by have := getTimeframeInMs_pos timeframe; omega⟩

/-- Witness for C3 at a concrete input: constant draws 1/2, hour 0,
BTCUSDT, timeframe 5m, 3 candles, generation time 1000. -/
theorem claim_C3_generator_wellformed_witness :
    (∀ m, 0 ≤ rHalf m ∧ rHalf m < 1) ∧
    ((∀ c ∈ generateFallbackHistoricalData hZero rHalf "BTCUSDT" "5m" 3 1000,
        c.low ≤ min c.«open» c.close ∧ max c.«open» c.close ≤ c.high) ∧
     List.Chain' (fun a b =>
        b.timestamp = a.timestamp + getTimeframeInMs "5m" ∧
        a.timestamp < b.timestamp)
      (generateFallbackHistoricalData hZero rHalf "BTCUSDT" "5m" 3 1000)) :=
  ⟨fun m => by norm_num [rHalf],
   claim_C3_generator_wellformed hZero rHalf "BTCUSDT" "5m" 3 1000
     (fun m => by norm_num [rHalf])⟩

/-- Claim C10: in every generated fallback sequence, the first candle's
open is the symbol's base price (`startingPrices` of the uppercased
symbol, default 100), every later candle's open equals the preceding
candle's close, and every open and close is strictly positive (the base
price from the table or default is always positive). -/
theorem claim_C10_open_chain (hourOf : ℤ → ℤ) (rand : ℕ → ℚ)
    (symbol timeframe : String) (limit : ℕ) (now : ℤ) :
    (0 < limit →
      (generateFallbackHistoricalData hourOf rand symbol timeframe limit now).head?.map
          CandleData.«open»
        = some ((startingPrices (jsToUpperCase symbol)).getD 100)) ∧
    List.Chain' (fun a b => b.«open» = a.close)
      (generateFallbackHistoricalData hourOf rand symbol timeframe limit now) ∧
    (∀ c ∈ generateFallbackHistoricalData hourOf rand symbol timeframe limit now,
        0 < c.«open» ∧ 0 < c.close) := by
  refine ⟨?_, ?_, ?_⟩
  · intro hl
    cases limit with
    | zero => omega
    | succ m =>
      exact genLoop_head_open hourOf rand now (getTimeframeInMs timeframe)
        (if strIncludes symbol "BTC" then 1/125 else 3/250) m 0
        ((startingPrices (jsToUpperCase symbol)).getD 100)
  · exact genLoop_chain_open hourOf rand now (getTimeframeInMs timeframe)
      (if strIncludes symbol "BTC" then 1/125 else 3/250) limit 0
      ((startingPrices (jsToUpperCase symbol)).getD 100)
  · intro c hc
    exact genLoop_mem_pos hourOf rand now (getTimeframeInMs timeframe)
      (if strIncludes symbol "BTC" then 1/125 else 3/250) limit 0
      ((startingPrices (jsToUpperCase symbol)).getD 100)
      (startingPrice_pos _) c hc

/-- Witness for C10 at a concrete input: unrecognized symbol, so the first
candle opens at the default base price 100. -/
theorem claim_C10_open_chain_witness :
    ((generateFallbackHistoricalData hZero rHalf "UNKNOWNSYM" "1h" 3 0).head?.map
        CandleData.«open» = some 100) ∧
    List.Chain' (fun a b => b.«open» = a.close)
      (generateFallbackHistoricalData hZero rHalf "UNKNOWNSYM" "1h" 3 0) :=
  ⟨(claim_C10_open_chain hZero rHalf "UNKNOWNSYM" "1h" 3 0).1 (by norm_num),
   (claim_C10_open_chain hZero rHalf "UNKNOWNSYM" "1h" 3 0).2.1⟩

/-- Claim C4 counterexample: in FALLBACK mode with generation time
`now = 1`, `getHistoricalData("UNKNOWNSYM", "1h", 50)` produces a last
candle whose timestamp is `now = 1`, while the most recent completed hour
boundary relative to `now = 1` is `1 - 1 % 3600000 = 0 ≠ 1`; so the last
candle does not lie on the hour boundary the claim asserts. -/
theorem claim_C4_counterexample :
    ((getHistoricalData hZero rHalf initState .transportError
        "UNKNOWNSYM" "1h" 50 1).getLast?.map CandleData.timestamp = some 1) ∧
    (1 : ℤ) - (1 : ℤ) % 3600000 = 0 ∧ (1 : ℤ) ≠ 0 := by
  refine ⟨?_, by decide, by decide⟩
  exact genLoop_getLast_timestamp hZero rHalf 1 (getTimeframeInMs "1h")
    (if strIncludes "UNKNOWNSYM" "BTC" then 1/125 else 3/250) 50 0
    ((startingPrices (jsToUpperCase "UNKNOWNSYM")).getD 100) (by norm_num)

/-- Claim C4 (amended): in FALLBACK mode,
`getHistoricalData("UNKNOWNSYM", "1h", 50)` returns exactly 50 candles
ordered oldest-first with consecutive timestamps exactly 3600000 ms apart,
the last candle's timestamp equal to the generation time itself (not
floored to an hour boundary), and the price walk seeded from the default
base price 100 since the symbol is not in the base-price table. -/
theorem claim_C4_amended (hourOf : ℤ → ℤ) (rand : ℕ → ℚ) (st : MDState)
    (outcome : FetchReply (List CandleData)) (now : ℤ)
    (hfb : st.isInitialized = false) :
    (getHistoricalData hourOf rand st outcome "UNKNOWNSYM" "1h" 50 now).length = 50 ∧
    List.Chain' (fun a b =>
        b.timestamp = a.timestamp + 3600000 ∧ a.timestamp < b.timestamp)
      (getHistoricalData hourOf rand st outcome "UNKNOWNSYM" "1h" 50 now) ∧
    ((getHistoricalData hourOf rand st outcome "UNKNOWNSYM" "1h" 50 now).getLast?.map
        CandleData.timestamp = some now) ∧
    ((getHistoricalData hourOf rand st outcome "UNKNOWNSYM" "1h" 50 now).head?.map
        CandleData.«open» = some 100) := by
  have hred : getHistoricalData hourOf rand st outcome "UNKNOWNSYM" "1h" 50 now
      = generateFallbackHistoricalData hourOf rand "UNKNOWNSYM" "1h" 50 now := by
    unfold getHistoricalData
    rw [hfb]
    rfl
  rw [hred]
  refine ⟨?_, ?_, ?_, ?_⟩
  · exact genLoop_length hourOf rand now (getTimeframeInMs "1h")
      (if strIncludes "UNKNOWNSYM" "BTC" then 1/125 else 3/250) 50 0
      ((startingPrices (jsToUpperCase "UNKNOWNSYM")).getD 100)
  · have hch := genLoop_chain_timestamp hourOf rand now ((3600000 : ℤ))
      (if strIncludes "UNKNOWNSYM" "BTC" then 1/125 else 3/250) 50 0
      ((startingPrices (jsToUpperCase "UNKNOWNSYM")).getD 100)
    exact hch.imp fun a b hab => ⟨hab, by omega⟩
  · exact genLoop_getLast_timestamp hourOf rand now (getTimeframeInMs "1h")
      (if strIncludes "UNKNOWNSYM" "BTC" then 1/125 else 3/250) 50 0
      ((startingPrices (jsToUpperCase "UNKNOWNSYM")).getD 100) (by norm_num)
  · exact genLoop_head_open hourOf rand now (getTimeframeInMs "1h")
      (if strIncludes "UNKNOWNSYM" "BTC" then 1/125 else 3/250) 49 0
      ((startingPrices (jsToUpperCase "UNKNOWNSYM")).getD 100)

/-- Witness for the amended C4 at a concrete input (FALLBACK state,
generation time 0). -/
theorem claim_C4_amended_witness :
    initState.isInitialized = false ∧
    ((getHistoricalData hZero rHalf initState .transportError
        "UNKNOWNSYM" "1h" 50 0).length = 50 ∧
     List.Chain' (fun a b =>
        b.timestamp = a.timestamp + 3600000 ∧ a.timestamp < b.timestamp)
      (getHistoricalData hZero rHalf initState .transportError
        "UNKNOWNSYM" "1h" 50 0) ∧
     ((getHistoricalData hZero rHalf initState .transportError
        "UNKNOWNSYM" "1h" 50 0).getLast?.map CandleData.timestamp = some 0) ∧
     ((getHistoricalData hZero rHalf initState .transportError
        "UNKNOWNSYM" "1h" 50 0).head?.map CandleData.«open» = some 100)) :=
  ⟨rfl, claim_C4_amended hZero rHalf initState .transportError 0 rfl⟩

/-- Claim C1: `getCurrentPrice` never raises — it is total, every failure
path of the live fetch being caught and replaced by a fallback value — and
whenever no cached positive price and no successful live price is
available, it returns the fixed fallback table value for the uppercased
symbol (42500 / 2650 / 0.485 / 7.85 for BTCUSDT / ETHUSDT / ADAUSDT /
DOTUSDT, 100 for any other symbol), which is strictly positive. -/
theorem claim_C1_price_fallback (st : MDState) (symbol : String)
    (outcome : FetchReply PricePayload)
    (hcache : ∀ t, st.tickerSubjects.lookup (jsToUpperCase symbol) = some t →
      t.price ≤ 0)
    (hnolive : st.isInitialized = false ∨
      ∀ d, outcome ≠ FetchReply.reply false d) :
    getCurrentPrice st symbol outcome
      = (fallbackPrices (jsToUpperCase symbol)).getD 100 ∧
    0 < getCurrentPrice st symbol outcome := by
  have hrest : getCurrentPriceRest st.isInitialized (jsToUpperCase symbol) outcome
      = (fallbackPrices (jsToUpperCase symbol)).getD 100 := by
    unfold getCurrentPriceRest
    rcases hnolive with h | h
    · rw [h]
      rfl
    · cases st.isInitialized with
      | false => rfl
      | true =>
        cases outcome with
        | transportError => rfl
        | reply c d =>
            cases c with
            | true => rfl
            | false => exact absurd rfl (h d)
  have hmain : getCurrentPrice st symbol outcome
      = (fallbackPrices (jsToUpperCase symbol)).getD 100 := by
    unfold getCurrentPrice
    cases hl : st.tickerSubjects.lookup (jsToUpperCase symbol) with
    | none => exact hrest
    | some t =>
        have hle := hcache t hl
        show (if 0 < t.price then t.price
            else getCurrentPriceRest st.isInitialized (jsToUpperCase symbol) outcome)
          = (fallbackPrices (jsToUpperCase symbol)).getD 100
        rw [if_neg (not_lt.mpr hle)]
        exact hrest
  exact ⟨hmain, hmain ▸ fallbackPrice_pos _⟩

/-- Witness for C1 at a concrete input: empty cache, FALLBACK mode,
transport failure, unrecognized symbol — the returned price is the
100 default and is positive. -/
theorem claim_C1_price_fallback_witness :
    (∀ t, initState.tickerSubjects.lookup (jsToUpperCase "unknowncoin") = some t →
      t.price ≤ 0) ∧
    (initState.isInitialized = false ∨
      ∀ d, (FetchReply.transportError : FetchReply PricePayload)
        ≠ FetchReply.reply false d) ∧
    (getCurrentPrice initState "unknowncoin" .transportError
        = (fallbackPrices (jsToUpperCase "unknowncoin")).getD 100 ∧
      0 < getCurrentPrice initState "unknowncoin" .transportError) ∧
    getCurrentPrice initState "unknowncoin" .transportError = 100 := by
  have h1 : ∀ t, initState.tickerSubjects.lookup (jsToUpperCase "unknowncoin")
      = some t → t.price ≤ 0 := by
    intro t ht
    simp [initState, List.lookup] at ht
  exact ⟨h1, Or.inl rfl,
    claim_C1_price_fallback initState "unknowncoin" .transportError h1 (Or.inl rfl),
    rfl⟩

/-- Does a fetch reply count as a failure: a transport/parse failure, or a
success reply carrying the exchange error envelope (`data.code`). -/
def failedReply {α : Type} : FetchReply α → Prop
  | .transportError => True
  | .reply c _ => c = true

/-- Claim C6: for `getTicker`, `getOrderBook` and `getSymbols`, a failure —
transport/parse failure or exchange error envelope alike — occurs exactly
when the reply is a failed reply, and in that case the operation returns an
error to the caller (no fallback value is substituted). -/
theorem claim_C6_errors_propagate (symbol : String) (now : ℤ) (limit : ℕ)
    (o1 : FetchReply TickerPayload) (o2 : FetchReply DepthPayload)
    (o3 : FetchReply (List SymbolInfo)) :
    ((∃ e, getTicker symbol now o1 = Except.error e) ↔ failedReply o1) ∧
    ((∃ e, getOrderBook symbol limit now o2 = Except.error e) ↔ failedReply o2) ∧
    ((∃ e, getSymbols o3 = Except.error e) ↔ failedReply o3) := by
  refine ⟨?_, ?_, ?_⟩
  · cases o1 with
    | transportError => simp [getTicker, failedReply]
    | reply c d => cases c <;> simp [getTicker, failedReply]
  · cases o2 with
    | transportError => simp [getOrderBook, failedReply]
    | reply c d => cases c <;> simp [getOrderBook, failedReply]
  · cases o3 with
    | transportError => simp [getSymbols, failedReply]
    | reply c d => cases c <;> simp [getSymbols, failedReply]

/-- Claim C7: `getHistoricalData` never raises: in FALLBACK mode, on any
failed kline fetch, and on a successful fetch returning zero candles, it
returns the synthetic generator's history, which always has the full
requested length. -/
theorem claim_C7_historical_never_fails (hourOf : ℤ → ℤ) (rand : ℕ → ℚ)
    (st : MDState) (o : FetchReply (List CandleData))
    (symbol timeframe : String) (limit : ℕ) (now : ℤ) :
    (st.isInitialized = false →
      getHistoricalData hourOf rand st o symbol timeframe limit now
        = generateFallbackHistoricalData hourOf rand symbol timeframe limit now) ∧
    (failedReply o →
      getHistoricalData hourOf rand st o symbol timeframe limit now
        = generateFallbackHistoricalData hourOf rand symbol timeframe limit now) ∧
    (∀ ks, o = FetchReply.reply false ks → ks.length = 0 →
      getHistoricalData hourOf rand st o symbol timeframe limit now
        = generateFallbackHistoricalData hourOf rand symbol timeframe limit now) ∧
    (generateFallbackHistoricalData hourOf rand symbol timeframe limit now).length
      = limit := by
  obtain ⟨ts, cs, tt, ct, ini⟩ := st
  refine ⟨?_, ?_, ?_, ?_⟩
  · intro h
    rw [show (MDState.mk ts cs tt ct ini).isInitialized = ini from rfl] at h
    subst h
    rfl
  · intro h
    cases o with
    | transportError => cases ini <;> rfl
    | reply c d =>
        have hc : c = true := h
        subst hc
        cases ini <;> rfl
  · intro ks hks h0
    subst hks
    have hnil : ks = [] := List.length_eq_zero.mp h0
    subst hnil
    cases ini <;> rfl
  · exact genLoop_length hourOf rand now (getTimeframeInMs timeframe)
      (if strIncludes symbol "BTC" then 1/125 else 3/250) limit 0
      ((startingPrices (jsToUpperCase symbol)).getD 100)

/-- Witness for C7 at a concrete input: live mode (`st110`), transport
failure — the result is the generated history of the requested length. -/
theorem claim_C7_historical_never_fails_witness :
    failedReply (FetchReply.transportError : FetchReply (List CandleData)) ∧
    getHistoricalData hZero rHalf st110 .transportError "BTCUSDT" "1h" 5 0
      = generateFallbackHistoricalData hZero rHalf "BTCUSDT" "1h" 5 0 ∧
    (generateFallbackHistoricalData hZero rHalf "BTCUSDT" "1h" 5 0).length = 5 :=
  ⟨trivial,
   (claim_C7_historical_never_fails hZero rHalf st110 .transportError
      "BTCUSDT" "1h" 5 0).2.1 trivial,
   (claim_C7_historical_never_fails hZero rHalf st110 .transportError
      "BTCUSDT" "1h" 5 0).2.2.2⟩

/-- Claim C5 counterexample: a single `subscribeToTicker` starts one
polling timer; `cleanup()` afterwards leaves that timer running (the timer
list is unchanged and non-empty), so cleanup does not cancel the polling
timers — the `setInterval` handle was never stored and `clearInterval` is
never called. -/
theorem claim_C5_counterexample :
    (subscribeToTicker initState "BTCUSDT" 0).1.tickerTimers = ["BTCUSDT"] ∧
    (cleanup (subscribeToTicker initState "BTCUSDT" 0).1).tickerTimers
      = ["BTCUSDT"] ∧
    ["BTCUSDT"] ≠ ([] : List String) := by
  refine ⟨rfl, rfl, by simp⟩

/-- Claim C5 (amended): `cleanup()` discards all ticker and candle
Subscriptions (both subject maps become empty) but cancels no polling
timer (both timer lists are unchanged); a subsequent `subscribeToTicker`
for any symbol — previously subscribed or not — creates a fresh
Subscription whose first emitted value is the zero-valued placeholder
Quote, not the old cached value. -/
theorem claim_C5_cleanup_amended (st : MDState) (symbol : String) (now : ℤ) :
    (cleanup st).tickerSubjects = [] ∧
    (cleanup st).candleSubjects = [] ∧
    (cleanup st).tickerTimers = st.tickerTimers ∧
    (cleanup st).candleTimers = st.candleTimers ∧
    (subscribeToTicker (cleanup st) symbol now).2
      = placeholderTicker (jsToUpperCase symbol) now ∧
    (subscribeToTicker (cleanup st) symbol now).2.price = 0 := by
  have h := subscribeToTicker_new (cleanup st) symbol now rfl
  refine ⟨rfl, rfl, rfl, rfl, by rw [h], by rw [h]; rfl⟩

/-- Claim C8: (1) starting from the initial state, after any sequence of
ticker/candle subscription requests each timer list has no duplicate key
— at most one polling timer per key; (2) subscribing twice to the same
ticker symbol (up to case) creates the subject and timer only on the
first call: the second call leaves the state unchanged and returns the
value of the same subject, and the first call added exactly one timer;
(3) the analogous statement for candle subscriptions keyed by
symbol+interval. -/
theorem claim_C8_timer_dedup :
    (∀ ops : List SubOp, (applyOps initState ops).tickerTimers.Nodup ∧
        (applyOps initState ops).candleTimers.Nodup) ∧
    (∀ (st : MDState) (s1 s2 : String) (n1 n2 : ℤ),
      jsToUpperCase s1 = jsToUpperCase s2 →
      st.tickerSubjects.lookup (jsToUpperCase s1) = none →
      subscribeToTicker (subscribeToTicker st s1 n1).1 s2 n2
          = ((subscribeToTicker st s1 n1).1,
             placeholderTicker (jsToUpperCase s1) n1) ∧
        (subscribeToTicker st s1 n1).2 = placeholderTicker (jsToUpperCase s1) n1 ∧
        (subscribeToTicker st s1 n1).1.tickerTimers
          = st.tickerTimers ++ [jsToUpperCase s1]) ∧
    (∀ (st : MDState) (s1 s2 iv : String),
      jsToUpperCase s1 = jsToUpperCase s2 →
      st.candleSubjects.lookup (jsToUpperCase s1 ++ "_" ++ iv) = none →
      subscribeToCandles (subscribeToCandles st s1 iv).1 s2 iv
          = ((subscribeToCandles st s1 iv).1, ([] : List CandleData)) ∧
        (subscribeToCandles st s1 iv).2 = ([] : List CandleData) ∧
        (subscribeToCandles st s1 iv).1.candleTimers
          = st.candleTimers ++ [jsToUpperCase s1 ++ "_" ++ iv]) := by
  refine ⟨?_, ?_, ?_⟩
  · intro ops
    have h := timerInv_applyOps ops initState timerInv_initState
    exact ⟨h.1, h.2.1⟩
  · intro st s1 s2 n1 n2 hcase hnone
    have hfirst := subscribeToTicker_new st s1 n1 hnone
    have hsub1 : (subscribeToTicker st s1 n1).1.tickerSubjects
        = st.tickerSubjects
          ++ [(jsToUpperCase s1, placeholderTicker (jsToUpperCase s1) n1)] := by
      rw [hfirst]
    have hl2 : (subscribeToTicker st s1 n1).1.tickerSubjects.lookup (jsToUpperCase s2)
        = some (placeholderTicker (jsToUpperCase s1) n1) := by
      rw [hsub1, ← hcase, lookup_append_none _ _ _ hnone, lookup_singleton]
    exact ⟨subscribeToTicker_mem _ s2 n2 _ hl2, by rw [hfirst], by rw [hfirst]⟩
  · intro st s1 s2 iv hcase hnone
    have hfirst := subscribeToCandles_new st s1 iv hnone
    have hsub1 : (subscribeToCandles st s1 iv).1.candleSubjects
        = st.candleSubjects ++ [(jsToUpperCase s1 ++ "_" ++ iv, [])] := by
      rw [hfirst]
    have hl2 : (subscribeToCandles st s1 iv).1.candleSubjects.lookup
          (jsToUpperCase s2 ++ "_" ++ iv)
        = some ([] : List CandleData) := by
      rw [hsub1, ← hcase, lookup_append_none _ _ _ hnone, lookup_singleton]
    exact ⟨subscribeToCandles_mem _ s2 iv _ hl2, by rw [hfirst], by rw [hfirst]⟩

/-- Witness for C8 at a concrete input: BTCUSDT subscribed twice (second
time in lower case); candle key BTCUSDT_1m subscribed twice. -/
theorem claim_C8_timer_dedup_witness :
    jsToUpperCase "BTCUSDT" = jsToUpperCase "btcusdt" ∧
    initState.tickerSubjects.lookup (jsToUpperCase "BTCUSDT") = none ∧
    (subscribeToTicker (subscribeToTicker initState "BTCUSDT" 0).1 "btcusdt" 5
        = ((subscribeToTicker initState "BTCUSDT" 0).1,
           placeholderTicker (jsToUpperCase "BTCUSDT") 0) ∧
      (subscribeToTicker initState "BTCUSDT" 0).2
        = placeholderTicker (jsToUpperCase "BTCUSDT") 0 ∧
      (subscribeToTicker initState "BTCUSDT" 0).1.tickerTimers
        = initState.tickerTimers ++ [jsToUpperCase "BTCUSDT"]) ∧
    ((applyOps initState [SubOp.tick "BTCUSDT" 0, SubOp.tick "btcusdt" 5,
        SubOp.cand "BTCUSDT" "1m", SubOp.cand "btcusdt" "1m"]).tickerTimers.Nodup ∧
      (applyOps initState [SubOp.tick "BTCUSDT" 0, SubOp.tick "btcusdt" 5,
        SubOp.cand "BTCUSDT" "1m", SubOp.cand "btcusdt" "1m"]).candleTimers.Nodup) :=
  ⟨rfl, rfl,
   (claim_C8_timer_dedup.2.1 initState "BTCUSDT" "btcusdt" 0 5 rfl rfl),
   (claim_C8_timer_dedup.1 [SubOp.tick "BTCUSDT" 0, SubOp.tick "btcusdt" 5,
      SubOp.cand "BTCUSDT" "1m", SubOp.cand "btcusdt" "1m"])⟩

/-- Claim C9: after FALLBACK seeding, for each of BTCUSDT, ETHUSDT and
ADAUSDT, the first `subscribeToTicker` leaves the state unchanged and
returns the seeded static quote (non-zero price, not the zero
placeholder), and no sequence of further subscription requests ever
creates a ticker polling timer for that symbol. -/
theorem claim_C9_seeded_quotes (now now2 : ℤ) (key : String)
    (hkey : key ∈ (["BTCUSDT", "ETHUSDT", "ADAUSDT"] : List String)) :
    ((subscribeToTicker (initializeFallbackData initState now) key now2).1
        = initializeFallbackData initState now) ∧
    (∃ t ∈ fallbackSeedList now, t.symbol = key ∧
        (subscribeToTicker (initializeFallbackData initState now) key now2).2 = t ∧
        t.price ≠ 0) ∧
    (∀ ops : List SubOp,
        key ∉ (applyOps (initializeFallbackData initState now) ops).tickerTimers) := by
  simp only [List.mem_cons, List.not_mem_nil, or_false] at hkey
  have hbase : ∀ t : TickerData,
      (initializeFallbackData initState now).tickerSubjects.lookup (jsToUpperCase key)
        = some t →
      (initializeFallbackData initState now).tickerSubjects.lookup key = some t →
      t ∈ fallbackSeedList now → t.symbol = key → t.price ≠ 0 →
      ((subscribeToTicker (initializeFallbackData initState now) key now2).1
          = initializeFallbackData initState now) ∧
      (∃ u ∈ fallbackSeedList now, u.symbol = key ∧
          (subscribeToTicker (initializeFallbackData initState now) key now2).2 = u ∧
          u.price ≠ 0) ∧
      (∀ ops : List SubOp,
          key ∉ (applyOps (initializeFallbackData initState now) ops).tickerTimers) := by
    intro t hl hkl hmem hsym hpr
    have hsubs := subscribeToTicker_mem (initializeFallbackData initState now)
      key now2 t hl
    refine ⟨by rw [hsubs], ⟨t, hmem, hsym, by rw [hsubs], hpr⟩, ?_⟩
    intro ops
    have hstart : seededNoTimer key (initializeFallbackData initState now) := by
      constructor
      · rw [hkl]
        rfl
      · rw [show (initializeFallbackData initState now).tickerTimers = [] from rfl]
        simp
    exact (seededNoTimer_applyOps key ops _ hstart).2
  rcases hkey with h | h | h
  · subst h
    exact hbase ⟨"BTCUSDT", 42500, 1250, 151/50, 125000, now⟩ rfl rfl
      (by simp [fallbackSeedList]) rfl (by norm_num)
  · subst h
    exact hbase ⟨"ETHUSDT", 2650, -45, -167/100, 125000, now⟩ rfl rfl
      (by simp [fallbackSeedList]) rfl (by norm_num)
  · subst h
    exact hbase ⟨"ADAUSDT", 97/200, 3/250, 127/50, 125000, now⟩ rfl rfl
      (by simp [fallbackSeedList]) rfl (by norm_num)

/-- Witness for C9 at a concrete input: seeding time 7, subscribe time 9,
symbol BTCUSDT. -/
theorem claim_C9_seeded_quotes_witness :
    "BTCUSDT" ∈ (["BTCUSDT", "ETHUSDT", "ADAUSDT"] : List String) ∧
    (((subscribeToTicker (initializeFallbackData initState 7) "BTCUSDT" 9).1
        = initializeFallbackData initState 7) ∧
     (∃ t ∈ fallbackSeedList 7, t.symbol = "BTCUSDT" ∧
        (subscribeToTicker (initializeFallbackData initState 7) "BTCUSDT" 9).2 = t ∧
        t.price ≠ 0) ∧
     (∀ ops : List SubOp,
        "BTCUSDT" ∉ (applyOps (initializeFallbackData initState 7) ops).tickerTimers)) :=
  ⟨by simp, claim_C9_seeded_quotes 7 9 "BTCUSDT" (by simp)⟩

end AlgoTrader
